import Mathlib

/-!
Shallow embedding of `src/vector.py` (class `Vector(tuple)`): an immutable
numeric vector represented as `List α`.  Python exceptions are modelled by the
`VError` type below and fallible operations return `Except VError _`.
Exact numeric claims are instantiated at `ℚ` (Python ints / `Fraction`);
operations whose Python code goes through `math.sqrt` / `math.atan2` /
`math.acos` are modelled over `ℝ`.
-/

namespace Vector

/-- Errors raised by `vector.py`:
`incompatibleDimensions m n` models `IncompatibleDimensions(m, n)` raised by
`_check_compatibility`; `dimensionError name n` models the `ValueError` built
by `_dimension_error(name)` (its message names the operation and the length);
`divisionByZero` models `ZeroDivisionError`; `typeError` models `TypeError`. -/
inductive VError where
  | incompatibleDimensions : Nat → Nat → VError
  | dimensionError : String → Nat → VError
  | divisionByZero : VError
  | typeError : VError
deriving DecidableEq, Repr

/-- Result of `Vector.cross`: a scalar for 2-D vectors, a vector for 3-D. -/
inductive CrossResult (α : Type) where
  | scalar : α → CrossResult α
  | vec : List α → CrossResult α
deriving DecidableEq, Repr

/-- The right-hand operand of `__add__` / `__sub__`, as dispatched by the
`isinstance(other, Sequence)` check: `vecSeq` is a Vector or other sequence of
numeric elements, `strSeq` is a `str` (registered as a `collections.Sequence`,
but its elements are characters, not numbers), `nonSeq` is any object that is
not a `Sequence` at all. -/
inductive Operand (α : Type) where
  | vecSeq : List α → Operand α
  | strSeq : List Char → Operand α
  | nonSeq : Operand α
deriving DecidableEq, Repr

/-- Result of a Python binary dunder: `notImplemented` models returning the
`NotImplemented` sentinel (deferring to the interpreter's dispatch). -/
inductive BinResult (α : Type) where
  | notImplemented : BinResult α
  | error : VError → BinResult α
  | ok : List α → BinResult α
deriving DecidableEq, Repr

variable {α : Type} [LinearOrderedField α]

/-- Model of `Vector._check_compatibility`: raise
`IncompatibleDimensions(len(self), len(other))` when the lengths differ. -/
def check_compatibility (self other : List α) : Except VError Unit :=
  if self.length ≠ other.length then
    .error (.incompatibleDimensions self.length other.length)
  else .ok ()

/-- Model of `Vector.__add__`: `NotImplemented` unless the operand is a
`Sequence`; then `_check_compatibility` and element-wise `+`.  A `str` operand
passes the `isinstance` check; adding a number to a character then raises
`TypeError` at the first element (so an empty string against an empty vector
succeeds with the empty vector). -/
def add (self : List α) : Operand α → BinResult α
  | .nonSeq => .notImplemented
  | .strSeq cs =>
      if self.length ≠ cs.length then
        .error (.incompatibleDimensions self.length cs.length)
      else if self.length = 0 then .ok [] else .error .typeError
  | .vecSeq w =>
      if self.length ≠ w.length then
        .error (.incompatibleDimensions self.length w.length)
      else .ok (List.zipWith (fun v u => v + u) self w)

/-- Model of `Vector.__sub__` (same dispatch as `__add__`, element-wise `-`). -/
def sub (self : List α) : Operand α → BinResult α
  | .nonSeq => .notImplemented
  | .strSeq cs =>
      if self.length ≠ cs.length then
        .error (.incompatibleDimensions self.length cs.length)
      else if self.length = 0 then .ok [] else .error .typeError
  | .vecSeq w =>
      if self.length ≠ w.length then
        .error (.incompatibleDimensions self.length w.length)
      else .ok (List.zipWith (fun v u => v - u) self w)

/-- Model of `Vector.__mul__`: element-wise `v * s`. -/
def mul (self : List α) (s : α) : List α :=
  self.map (fun v => v * s)

/-- Model of `Vector.__rmul__` (invoked for `s * vector`): the source computes
the same `Vector(v * s for v in self)` as `__mul__`. -/
def rmul (self : List α) (s : α) : List α :=
  self.map (fun v => v * s)

/-- Model of `Vector.__truediv__`: element-wise `v / s`.  Python raises
`ZeroDivisionError` at the first element when `s == 0`; with no elements the
generator never divides, so the empty vector divides by anything. -/
def div (self : List α) (s : α) : Except VError (List α) :=
  if s = 0 ∧ self ≠ [] then .error .divisionByZero
  else .ok (self.map (fun v => v / s))

/-- Model of `Vector.__floordiv__`: element-wise `v // s` (rational floor
division yields the floor of the true quotient, as for Python ints and
`Fraction`). -/
def floordiv [FloorRing α] (self : List α) (s : α) : Except VError (List α) :=
  if s = 0 ∧ self ≠ [] then .error .divisionByZero
  else .ok (self.map (fun v => ((⌊v / s⌋ : ℤ) : α)))

/-- Model of `Vector.__neg__`: `self * -1`. -/
def neg (self : List α) : List α :=
  mul self (-1)

/-- Model of `Vector.dot`: check compatibility, then sum of element-wise
products. -/
def dot (self other : List α) : Except VError α :=
  match check_compatibility self other with
  | .error e => .error e
  | .ok _ => .ok (List.zipWith (fun v w => v * w) self other).sum

/-- Model of `Vector.magnitude_squared`: `sum(v * v for v in self)`. -/
def magnitude_squared (self : List α) : α :=
  (self.map (fun v => v * v)).sum

/-- Model of `Vector.map`: element-wise application of `f`. -/
def map {β : Type} (self : List α) (f : α → β) : List β :=
  self.map f

/-- Model of `Vector.cross`: `_check_compatibility` first, then dispatch on
`len(self)`; 2-D returns the scalar `self[0]*other[1] - self[1]*other[0]`,
3-D the full cross product, any other length raises
`_dimension_error('cross')`. -/
def cross (self other : List α) : Except VError (CrossResult α) :=
  match check_compatibility self other with
  | .error e => .error e
  | .ok _ =>
    if self.length = 2 then
      .ok (.scalar (self.getD 0 0 * other.getD 1 0 - self.getD 1 0 * other.getD 0 0))
    else if self.length = 3 then
      .ok (.vec [self.getD 1 0 * other.getD 2 0 - self.getD 2 0 * other.getD 1 0,
                 self.getD 2 0 * other.getD 0 0 - self.getD 0 0 * other.getD 2 0,
                 self.getD 0 0 * other.getD 1 0 - self.getD 1 0 * other.getD 0 0])
    else .error (.dimensionError "cross" self.length)

/-- Model of `Vector.projected`: `self * (self.dot(other) / self.magnitude_squared)`.
Python evaluates `self.dot(other)` first (which can raise
`IncompatibleDimensions`), then the scalar division raises
`ZeroDivisionError` exactly when `magnitude_squared` is zero. -/
def projected (self other : List α) : Except VError (List α) :=
  match dot self other with
  | .error e => .error e
  | .ok dp =>
    if magnitude_squared self = 0 then .error .divisionByZero
    else .ok (mul self (dp / magnitude_squared self))

/-- Model of `Vector.__abs__` (and the `magnitude` property):
`sqrt(self.magnitude_squared)`. -/
noncomputable def magnitude (self : List ℝ) : ℝ :=
  Real.sqrt (magnitude_squared self)

/-- Model of `Vector.normalized`: `self / abs(self)`, i.e. element-wise true
division by the magnitude.  The division raises `ZeroDivisionError` exactly
when the magnitude is zero and there is at least one element (the generator
for the empty vector never divides). -/
noncomputable def normalized (self : List ℝ) : Except VError (List ℝ) :=
  if magnitude self = 0 ∧ self ≠ [] then .error .divisionByZero
  else .ok (self.map (fun v => v / magnitude self))

/-- Model of `Vector.scaled`: `self * (s / abs(self))`.  The scalar division
`s / abs(self)` is evaluated first and raises `ZeroDivisionError` exactly when
the magnitude is zero (even for the empty vector). -/
noncomputable def scaled (self : List ℝ) (s : ℝ) : Except VError (List ℝ) :=
  if magnitude self = 0 then .error .divisionByZero
  else .ok (mul self (s / magnitude self))

/-- Model of `math.atan2` over the reals (signed zeros are not modelled):
the angle of the point `(x, y)` in `(-π, π]`, with `atan2 0 0 = 0`. -/
noncomputable def atan2 (y x : ℝ) : ℝ :=
  if 0 < x then Real.arctan (y / x)
  else if x < 0 then
    if 0 ≤ y then Real.arctan (y / x) + Real.pi
    else Real.arctan (y / x) - Real.pi
  else
    if 0 < y then Real.pi / 2
    else if y < 0 then -(Real.pi / 2)
    else 0

/-- Model of the Python `abs(self.cross(other))` inside `angle_to`: numeric
absolute value of the 2-D scalar cross product, vector magnitude of the 3-D
cross product. -/
noncomputable def cross_abs : CrossResult ℝ → ℝ
  | .scalar s => |s|
  | .vec v => magnitude v

/-- Model of `Vector.angle_to`: for lengths 2 and 3,
`atan2(abs(self.cross(other)), self.dot(other))` (Python evaluates the cross
product first, then the dot product — either can raise); otherwise the
generic fallback `acos(self.dot(other) / sqrt(self.magnitude_squared *
sum(v * v for v in other)))`, where the dot product is evaluated first and the
division raises `ZeroDivisionError` exactly when the square root is zero. -/
noncomputable def angle_to (self other : List ℝ) : Except VError ℝ :=
  if self.length = 2 ∨ self.length = 3 then
    match cross self other with
    | .error e => .error e
    | .ok c =>
      match dot self other with
      | .error e => .error e
      | .ok d => .ok (atan2 (cross_abs c) d)
  else
    match dot self other with
    | .error e => .error e
    | .ok d =>
      let den := Real.sqrt (magnitude_squared self * (other.map (fun v => v * v)).sum)
      if den = 0 then .error .divisionByZero
      else .ok (Real.arccos (d / den))

/-- A Python object passed to the `Vector` constructor: either a non-iterable
numeric value (an `atom`) or an iterable of numeric values (an `iter`). -/
inductive PyObj (β : Type) where
  | atom : β → PyObj β
  | iter : List β → PyObj β
deriving DecidableEq, Repr

/-- Model of Python `tuple(x)`: iterating a non-iterable raises `TypeError`;
an iterable yields its elements. -/
def tupleOf {β : Type} : PyObj β → Except VError (List (PyObj β))
  | .atom _ => .error .typeError
  | .iter xs => .ok (xs.map .atom)

/-- Model of `Vector.__new__(cls, *args)`: with exactly one positional
argument, `args = args[0]` and the vector is `tuple(args)` — so the single
argument must itself be iterable; with any other number of positional
arguments, the arguments themselves are the elements. -/
def vectorNew {β : Type} : List (PyObj β) → Except VError (List (PyObj β))
  | [a] => tupleOf a
  | [] => .ok []
  | a :: b :: rest => .ok (a :: b :: rest)

/-- Decimal digit character, `chr(48 + d)`. -/
def digitChar (d : Nat) : Char :=
  Char.ofNat (48 + d)

/-- Decimal digits of `n`, most significant first (fuel-based structural
recursion; `fuel > n` suffices). -/
def natDigitsAux : Nat → Nat → List Char
  | 0, _ => []
  | fuel + 1, n =>
      if n < 10 then [digitChar n]
      else natDigitsAux fuel (n / 10) ++ [digitChar (n % 10)]

/-- Decimal digits of `n`, most significant first. -/
def natDigits (n : Nat) : List Char :=
  natDigitsAux (n + 1) n

/-- Model of Python `repr` of an `int`: decimal digits, `-`-prefixed when
negative. -/
def intRepr (i : Int) : List Char :=
  if i < 0 then '-' :: natDigits i.natAbs else natDigits i.toNat

/-- Comma-space separated decimal renderings, as produced inside Python's
`repr` of a tuple of ints. -/
def reprElems : List Int → List Char
  | [] => []
  | [x] => intRepr x
  | x :: y :: xs => intRepr x ++ ',' :: ' ' :: reprElems (y :: xs)

/-- Model of Python `repr` of a tuple of ints: `()`, `(x,)`, or
`(x, y, ...)`. -/
def reprTuple : List Int → List Char
  | [] => ['(', ')']
  | [x] => '(' :: (intRepr x ++ [',', ')'])
  | x :: y :: xs => '(' :: (reprElems (x :: y :: xs) ++ [')'])

/-- Model of `Vector.__repr__` at the character level: length 1 uses the
format `'{0}({1!r})'` (the repr of the one-element *tuple*, wrapped in one
more pair of parentheses), any other length uses `'{0}{1!r}'`. -/
def reprVectorChars (v : List Int) : List Char :=
  if v.length = 1 then
    ('V' :: 'e' :: 'c' :: 't' :: 'o' :: 'r' :: '(' :: reprTuple v) ++ [')']
  else
    'V' :: 'e' :: 'c' :: 't' :: 'o' :: 'r' :: reprTuple v

/-- Model of `Vector.__repr__` as a string. -/
def reprVector (v : List Int) : String :=
  ⟨reprVectorChars v⟩

/-- Whether a character is a decimal digit. -/
def isDigitC (c : Char) : Bool :=
  decide (48 ≤ c.toNat) && decide (c.toNat ≤ 57)

/-- Numeric value of a digit string (most significant first). -/
def digitsVal (ds : List Char) : Nat :=
  ds.foldl (fun a c => a * 10 + (c.toNat - 48)) 0

/-- Parse a nonempty run of decimal digits from the front of `cs`. -/
def parseNatCs (cs : List Char) : Option (Nat × List Char) :=
  if cs.takeWhile isDigitC = [] then none
  else some (digitsVal (cs.takeWhile isDigitC), cs.dropWhile isDigitC)

/-- Parse an optionally `-`-signed decimal integer from the front of `cs`. -/
def parseIntCs : List Char → Option (Int × List Char)
  | [] => none
  | c :: rest =>
      if c = '-' then (parseNatCs rest).map (fun p => (-(p.1 : Int), p.2))
      else (parseNatCs (c :: rest)).map (fun p => ((p.1 : Int), p.2))

/-- Parse a nonempty `', '`-separated list of integers (fuel bounds the number
of elements). -/
def parseElemsF : Nat → List Char → Option (List Int × List Char)
  | 0, _ => none
  | fuel + 1, cs =>
      match parseIntCs cs with
      | none => none
      | some (i, rest) =>
          match rest with
          | [] => some ([i], [])
          | [c] => some ([i], [c])
          | c1 :: c2 :: rest2 =>
              if c1 = ',' ∧ c2 = ' ' then
                match parseElemsF fuel rest2 with
                | none => none
                | some (l, r) => some (i :: l, r)
              else some ([i], c1 :: c2 :: rest2)

/-- Parse a Python tuple literal of ints, either `(x,)` or `(x, y, ...)`
with at least two elements. -/
def parseTuple (cs : List Char) : Option (List Int × List Char) :=
  match cs with
  | [] => none
  | c :: rest =>
      if c = '(' then
        match parseElemsF (rest.length + 1) rest with
        | none => none
        | some (xs, rest2) =>
            match rest2 with
            | [] => none
            | c1 :: rest3 =>
                if c1 = ')' then
                  if 2 ≤ xs.length then some (xs, rest3) else none
                else if c1 = ',' then
                  match rest3 with
                  | [] => none
                  | c2 :: rest4 => if c2 = ')' then some (xs, rest4) else none
                else none
      else none

/-- Model of evaluating the text of a call `Vector(...)`: the positional
arguments are either absent, a single tuple literal (an iterable argument), a
single bare integer (a non-iterable argument), or two or more integers. -/
def parseVectorCallChars (cs : List Char) : Option (List (PyObj Int)) :=
  match cs with
  | 'V' :: 'e' :: 'c' :: 't' :: 'o' :: 'r' :: '(' :: rest =>
      match rest with
      | [] => none
      | c :: rest2 =>
          if c = ')' then if rest2 = [] then some [] else none
          else if c = '(' then
            match parseTuple (c :: rest2) with
            | none => none
            | some (xs, r) => if r = [')'] then some [.iter xs] else none
          else
            match parseElemsF (rest2.length + 2) (c :: rest2) with
            | none => none
            | some (xs, r) => if r = [')'] then some (xs.map .atom) else none
  | _ => none

/-- Model of evaluating a rendered vector text: parse the call, then apply
the constructor `vectorNew`. -/
def pyEval (s : String) : Option (Except VError (List (PyObj Int))) :=
  (parseVectorCallChars s.data).map vectorNew

/-- The first character of `rest`, if any, is not a digit (so a digit run
ends exactly at `rest`). -/
def headNotDigit : List Char → Prop
  | [] => True
  | c :: _ => isDigitC c = false

/-- Text at which the integer-list parser stops: the next character is not a
digit and the next two characters are not the separator `', '`. -/
def elemsStop : List Char → Prop
  | [] => True
  | [c] => isDigitC c = false
  | c1 :: c2 :: _ => isDigitC c1 = false ∧ ¬(c1 = ',' ∧ c2 = ' ')

theorem zipWith_mul_self (v : List ℚ) :
    List.zipWith (fun a b => a * b) v v = v.map (fun a => a * a) := by
  induction v with
  | nil => rfl
  | cons a v ih => simp [ih]

end Vector

namespace Vector

/-- C1: for equal-length operands, `cross` returns the scalar
`self[0]*other[1] - self[1]*other[0]` on 2-vectors, the full vector cross
product on 3-vectors (in particular `Vector(3,4).cross((2,1)) == -5` and
`Vector(2,1,0).cross((3,4,0)) == Vector(0,0,5)`), and raises the
dimension-restriction error naming `cross` on any other length; mismatched
lengths raise `IncompatibleDimensions`. -/
theorem cross_dimension_dispatch :
    (∀ a b c d : ℚ, cross [a, b] [c, d] = .ok (.scalar (a * d - b * c))) ∧
    (∀ a b c d e f : ℚ, cross [a, b, c] [d, e, f] =
        .ok (.vec [b * f - c * e, c * d - a * f, a * e - b * d])) ∧
    (∀ v w : List ℚ, v.length = w.length → v.length ≠ 2 → v.length ≠ 3 →
        cross v w = .error (.dimensionError "cross" v.length)) ∧
    (∀ v w : List ℚ, v.length ≠ w.length →
        cross v w = .error (.incompatibleDimensions v.length w.length)) ∧
    cross [(3 : ℚ), 4] [2, 1] = .ok (.scalar (-5)) ∧
    cross [(2 : ℚ), 1, 0] [3, 4, 0] = .ok (.vec [0, 0, 5]) := by
  refine ⟨?_, ?_, ?_, ?_,
    by norm_num [cross, check_compatibility],
    by norm_num [cross, check_compatibility]⟩
  · intro a b c d
    simp [cross, check_compatibility]
  · intro a b c d e f
    simp [cross, check_compatibility]
  · intro v w hlen h2 h3
    have hc : check_compatibility v w = .ok () := by simp [check_compatibility, hlen]
    simp [cross, hc, h2, h3]
  · intro v w hlen
    simp [cross, check_compatibility, hlen]

theorem cross_dimension_dispatch_witness :
    cross [(1 : ℚ)] [1] = .error (.dimensionError "cross" 1) ∧
    cross [(1 : ℚ)] [1, 2] = .error (.incompatibleDimensions 1 2) :=
  ⟨cross_dimension_dispatch.2.2.1 [1] [1] (by decide) (by decide) (by decide),
   cross_dimension_dispatch.2.2.2.1 [1] [1, 2] (by decide)⟩

/-- C2: the binary operations requiring matching lengths (`+`, `-`, `dot`,
`cross`) all raise `IncompatibleDimensions` carrying both lengths when the
lengths differ; in particular `Vector(0,0) + (0,0,0)` carries `(2, 3)`. -/
theorem incompatible_dimensions_carries_lengths :
    (∀ v w : List ℚ, v.length ≠ w.length →
        add v (.vecSeq w) = .error (.incompatibleDimensions v.length w.length) ∧
        sub v (.vecSeq w) = .error (.incompatibleDimensions v.length w.length) ∧
        dot v w = .error (.incompatibleDimensions v.length w.length) ∧
        cross v w = .error (.incompatibleDimensions v.length w.length)) ∧
    add [(0 : ℚ), 0] (.vecSeq [0, 0, 0]) = .error (.incompatibleDimensions 2 3) := by
  refine ⟨fun v w h => ⟨?_, ?_, ?_, ?_⟩, by decide⟩
  · simp [add, h]
  · simp [sub, h]
  · simp [dot, check_compatibility, h]
  · simp [cross, check_compatibility, h]

theorem incompatible_dimensions_carries_lengths_witness :
    sub [(1 : ℚ)] (.vecSeq [1, 2]) = .error (.incompatibleDimensions 1 2) ∧
    dot [(1 : ℚ)] [1, 2] = .error (.incompatibleDimensions 1 2) :=
  ⟨(incompatible_dimensions_carries_lengths.1 [1] [1, 2] (by decide)).2.1,
   (incompatible_dimensions_carries_lengths.1 [1] [1, 2] (by decide)).2.2.1⟩

/-- C4: `magnitude_squared` is the sum of the squared elements in the element
type's own arithmetic (it equals the dot product of the vector with itself),
and on the exact rationals `1/2, 1/3` it is exactly `13/36`. -/
theorem magnitude_squared_exact :
    magnitude_squared [(1 : ℚ) / 2, 1 / 3] = 13 / 36 ∧
    ∀ v : List ℚ, dot v v = .ok (magnitude_squared v) := by
  constructor
  · norm_num [magnitude_squared]
  · intro v
    simp [dot, check_compatibility, magnitude_squared, zipWith_mul_self]

/-- C6 (amended): a right-hand operand of `+` or `-` that is not a sequence
at all makes the operation return `NotImplemented` (deferring to the host
dispatch) and never `IncompatibleDimensions`; a sequence operand with
non-numeric elements is dispatched on the length-matching path instead. -/
theorem non_sequence_not_implemented :
    (∀ v : List ℚ, add v .nonSeq = .notImplemented ∧ sub v .nonSeq = .notImplemented) ∧
    (∀ (v : List ℚ) (m n : Nat),
        add v .nonSeq ≠ .error (.incompatibleDimensions m n) ∧
        sub v .nonSeq ≠ .error (.incompatibleDimensions m n)) :=
  ⟨fun _ => ⟨rfl, rfl⟩, fun v m n => ⟨by simp [add], by simp [sub]⟩⟩

/-- C6 counterexample: a `str` of length 3 has a length but no numeric
elements, yet `Vector(0,0) + 'abc'` raises `IncompatibleDimensions(2, 3)`
(the code only tests `isinstance(other, Sequence)`, and Python registers
`str` as a `Sequence`), not the claimed not-supported signal. -/
theorem non_sequence_counterexample :
    add [(0 : ℚ), 0] (.strSeq ['a', 'b', 'c']) = .error (.incompatibleDimensions 2 3) ∧
    add [(0 : ℚ), 0] (.strSeq ['a', 'b', 'c']) ≠ .notImplemented := by
  constructor <;> decide

/-- C8: vector addition of equal-length vectors is commutative, and scalar
multiplication is commutative in operand order (`__rmul__` computes the very
same element-wise products as `__mul__`). -/
theorem addition_scalar_mul_commutative :
    (∀ v w : List ℚ, v.length = w.length → add v (.vecSeq w) = add w (.vecSeq v)) ∧
    (∀ (v : List ℚ) (s : ℚ), rmul v s = mul v s) := by
  constructor
  · intro v w h
    simp only [add]
    rw [if_neg (by omega), if_neg (by omega)]
    exact congrArg BinResult.ok (List.zipWith_comm_of_comm _ add_comm v w)
  · intro v s
    rfl

theorem addition_scalar_mul_commutative_witness :
    add [(1 : ℚ), 2] (.vecSeq [3, 4]) = add [3, 4] (.vecSeq [1, 2]) :=
  addition_scalar_mul_commutative.1 [1, 2] [3, 4] (by decide)

/-- C9: every element-wise operation preserves length: whenever `v + w`,
`v - w`, `v * s`, `v / s`, `v // s`, `-v` or `v.map(f)` produces a vector,
that vector has the length of `v`. -/
theorem elementwise_length_preserved :
    (∀ v w u : List ℚ, add v (.vecSeq w) = .ok u → u.length = v.length) ∧
    (∀ v w u : List ℚ, sub v (.vecSeq w) = .ok u → u.length = v.length) ∧
    (∀ (v : List ℚ) (s : ℚ), (mul v s).length = v.length) ∧
    (∀ (v u : List ℚ) (s : ℚ), div v s = .ok u → u.length = v.length) ∧
    (∀ (v u : List ℚ) (s : ℚ), floordiv v s = .ok u → u.length = v.length) ∧
    (∀ v : List ℚ, (neg v).length = v.length) ∧
    (∀ (v : List ℚ) (f : ℚ → ℚ), (map v f).length = v.length) := by
  refine ⟨?_, ?_, ?_, ?_, ?_, ?_, ?_⟩
  · intro v w u h
    simp only [add] at h
    split at h
    · exact absurd h (by simp)
    · obtain rfl : List.zipWith (fun a b => a + b) v w = u := by
        simpa using h
      simp [List.length_zipWith]
      omega
  · intro v w u h
    simp only [sub] at h
    split at h
    · exact absurd h (by simp)
    · obtain rfl : List.zipWith (fun a b => a - b) v w = u := by
        simpa using h
      simp [List.length_zipWith]
      omega
  · intro v s
    simp [mul]
  · intro v u s h
    simp only [div] at h
    split at h
    · exact absurd h (by simp)
    · obtain rfl : v.map (fun a => a / s) = u := by simpa using h
      simp
  · intro v u s h
    simp only [floordiv] at h
    split at h
    · exact absurd h (by simp)
    · obtain rfl : v.map (fun a => ((⌊a / s⌋ : ℤ) : ℚ)) = u := by simpa using h
      simp
  · intro v
    simp [neg, mul]
  · intro v f
    simp [map]

theorem elementwise_length_preserved_witness :
    ([(0 : ℚ), 0] : List ℚ).length = ([(0 : ℚ), 0] : List ℚ).length ∧
    ([(0 : ℚ)] : List ℚ).length = ([(0 : ℚ)] : List ℚ).length :=
  ⟨elementwise_length_preserved.1 [0, 0] [0, 0] [0, 0] (by simp [add]),
   elementwise_length_preserved.2.2.2.1 [0] [0] 1 (by simp [div])⟩

theorem magnitude_squared_nonneg (v : List ℝ) : 0 ≤ magnitude_squared v := by
  refine List.sum_nonneg ?_
  intro x hx
  obtain ⟨a, -, rfl⟩ := List.mem_map.mp hx
  exact mul_self_nonneg a

theorem magnitude_eq_zero_iff (v : List ℝ) :
    magnitude v = 0 ↔ magnitude_squared v = 0 := by
  rw [magnitude, Real.sqrt_eq_zero (magnitude_squared_nonneg v)]

theorem magnitude_squared_of_all_zero (v : List ℝ) (h : ∀ x ∈ v, x = 0) :
    magnitude_squared v = 0 := by
  refine List.sum_eq_zero ?_
  intro x hx
  obtain ⟨a, ha, rfl⟩ := List.mem_map.mp hx
  rw [h a ha, mul_zero]

/-- C3 (amended): for every vector with at least one element whose magnitude
is zero, `scaled(s)`, `normalized()` and `projected(other)` (for `other` of
the same length) each raise `ZeroDivisionError`, an error distinct from
`IncompatibleDimensions` and from the dimension-restriction error; in
particular the three instances from the spec do.  (`scaled` raises even for
the empty vector, since the scalar division `s / abs(self)` is evaluated
first; `normalized` on the empty vector returns the empty vector; `projected`
with a length-mismatched operand raises `IncompatibleDimensions` instead.) -/
theorem zero_magnitude_division_by_zero :
    (∀ (v : List ℝ) (s : ℝ), magnitude v = 0 → scaled v s = .error .divisionByZero) ∧
    (∀ v : List ℝ, v ≠ [] → magnitude v = 0 → normalized v = .error .divisionByZero) ∧
    (∀ v w : List ℝ, v.length = w.length → magnitude v = 0 →
        projected v w = .error .divisionByZero) ∧
    (∀ m n : Nat, VError.divisionByZero ≠ VError.incompatibleDimensions m n) ∧
    (∀ (nm : String) (n : Nat), VError.divisionByZero ≠ VError.dimensionError nm n) ∧
    scaled [(0 : ℝ), 0] 3 = .error .divisionByZero ∧
    normalized [(0 : ℝ), 0, 0] = .error .divisionByZero ∧
    projected [(0 : ℝ), 0, 0, 0] [1, 2, 3, 4] = .error .divisionByZero := by
  have hmag : ∀ v : List ℝ, (∀ x ∈ v, x = 0) → magnitude v = 0 := fun v h =>
    (magnitude_eq_zero_iff v).mpr (magnitude_squared_of_all_zero v h)
  refine ⟨?_, ?_, ?_, fun m n => by simp, fun nm n => by simp, ?_, ?_, ?_⟩
  · intro v s h
    simp [scaled, h]
  · intro v hne h
    simp [normalized, h, hne]
  · intro v w hlen h
    have hc : check_compatibility v w = .ok () := by simp [check_compatibility, hlen]
    simp [projected, dot, hc, (magnitude_eq_zero_iff v).mp h]
  · simp [scaled, hmag [(0 : ℝ), 0] (by norm_num)]
  · simp [normalized, hmag [(0 : ℝ), 0, 0] (by norm_num)]
  · have hc : check_compatibility [(0 : ℝ), 0, 0, 0] [1, 2, 3, 4] = .ok () := by
      simp [check_compatibility]
    simp [projected, dot, hc,
      magnitude_squared_of_all_zero [(0 : ℝ), 0, 0, 0] (by norm_num)]

theorem zero_magnitude_division_by_zero_witness :
    scaled [(0 : ℝ)] 1 = .error .divisionByZero ∧
    normalized [(0 : ℝ)] = .error .divisionByZero ∧
    projected [(0 : ℝ)] [1] = .error .divisionByZero :=
  ⟨zero_magnitude_division_by_zero.1 [0] 1
      (by simp [magnitude, magnitude_squared]),
   zero_magnitude_division_by_zero.2.1 [0] (by simp)
      (by simp [magnitude, magnitude_squared]),
   zero_magnitude_division_by_zero.2.2.1 [0] [1] rfl
      (by simp [magnitude, magnitude_squared])⟩

/-- C3 counterexample: the empty vector has magnitude zero, yet
`Vector().normalized()` does not raise — the element-wise division generator
has no elements, so it returns the empty vector. -/
theorem zero_magnitude_counterexample :
    normalized ([] : List ℝ) = .ok [] ∧ magnitude ([] : List ℝ) = 0 := by
  constructor
  · simp [normalized]
  · simp [magnitude, magnitude_squared]

theorem arctan_nonneg_of_nonneg {t : ℝ} (h : 0 ≤ t) : 0 ≤ Real.arctan t := by
  have := Real.arctan_strictMono.monotone h
  rwa [Real.arctan_zero] at this

theorem arctan_nonpos_of_nonpos {t : ℝ} (h : t ≤ 0) : Real.arctan t ≤ 0 := by
  have := Real.arctan_strictMono.monotone h
  rwa [Real.arctan_zero] at this

theorem atan2_bounds (y x : ℝ) (hy : 0 ≤ y) : 0 ≤ atan2 y x ∧ atan2 y x ≤ Real.pi := by
  unfold atan2
  by_cases hx : 0 < x
  · rw [if_pos hx]
    have h1 := Real.arctan_lt_pi_div_two (y / x)
    have h2 := Real.pi_pos
    exact ⟨arctan_nonneg_of_nonneg (div_nonneg hy hx.le), by linarith⟩
  · rw [if_neg hx]
    by_cases hx2 : x < 0
    · rw [if_pos hx2, if_pos hy]
      have h1 := Real.neg_pi_div_two_lt_arctan (y / x)
      have hyx : y / x ≤ 0 := div_nonpos_of_nonneg_of_nonpos hy hx2.le
      have h3 : Real.arctan (y / x) ≤ 0 := arctan_nonpos_of_nonpos hyx
      have h2 := Real.pi_pos
      constructor <;> linarith
    · rw [if_neg hx2]
      by_cases hy0 : 0 < y
      · rw [if_pos hy0]
        have := Real.pi_pos
        constructor <;> linarith
      · rw [if_neg hy0, if_neg (by linarith : ¬y < 0)]
        exact ⟨le_refl 0, Real.pi_pos.le⟩

theorem atan2_one_zero : atan2 1 0 = Real.pi / 2 := by
  norm_num [atan2]

/-- C5: on vectors of length 2 or 3 (with a same-length operand), `angle_to`
returns `atan2(‖cross‖, dot)` — the 2-D case uses the absolute value of the
scalar cross product, the 3-D case the magnitude of the vector cross
product — and the result lies in `[0, π]`; in particular
`Vector(1,0,0).angle_to((0,1,0)) == π/2`.  On any other length it falls back
to `acos(dot / sqrt(‖self‖² · ‖other‖²))`, which raises `ZeroDivisionError`
when either vector is the zero vector. -/
theorem angle_to_unsigned_angle :
    (∀ a b c d : ℝ, angle_to [a, b] [c, d] =
        .ok (atan2 |a * d - b * c| (a * c + b * d))) ∧
    (∀ a b c d e f : ℝ, angle_to [a, b, c] [d, e, f] =
        .ok (atan2 (Real.sqrt ((b * f - c * e) * (b * f - c * e) +
              ((c * d - a * f) * (c * d - a * f) + (a * e - b * d) * (a * e - b * d))))
            (a * d + (b * e + c * f)))) ∧
    (∀ v w : List ℝ, v.length = 2 ∨ v.length = 3 → v.length = w.length →
        ∀ θ : ℝ, angle_to v w = .ok θ → 0 ≤ θ ∧ θ ≤ Real.pi) ∧
    angle_to [(1 : ℝ), 0, 0] [0, 1, 0] = .ok (Real.pi / 2) ∧
    (∀ v w : List ℝ, v.length ≠ 2 → v.length ≠ 3 → v.length = w.length →
        ((∀ x ∈ v, x = 0) ∨ (∀ x ∈ w, x = 0)) →
        angle_to v w = .error .divisionByZero) ∧
    (∀ v w : List ℝ, v.length ≠ 2 → v.length ≠ 3 → v.length = w.length →
        Real.sqrt (magnitude_squared v * magnitude_squared w) ≠ 0 →
        angle_to v w = .ok (Real.arccos ((List.zipWith (fun a b => a * b) v w).sum /
          Real.sqrt (magnitude_squared v * magnitude_squared w)))) := by
  refine ⟨?_, ?_, ?_, ?_, ?_, ?_⟩
  · intro a b c d
    simp [angle_to, cross, dot, check_compatibility, cross_abs]
  · intro a b c d e f
    simp [angle_to, cross, dot, check_compatibility, cross_abs, magnitude,
      magnitude_squared]
  · intro v w hdim hlen θ h
    rcases hdim with h2 | h3
    · obtain ⟨a, b, rfl⟩ := List.length_eq_two.mp h2
      obtain ⟨c, d, rfl⟩ := List.length_eq_two.mp (h2 ▸ hlen.symm)
      simp [angle_to, cross, dot, check_compatibility, cross_abs] at h
      obtain rfl := h.symm
      exact atan2_bounds _ _ (abs_nonneg _)
    · obtain ⟨a, b, c, rfl⟩ := List.length_eq_three.mp h3
      obtain ⟨d, e, f, rfl⟩ := List.length_eq_three.mp (h3 ▸ hlen.symm)
      simp [angle_to, cross, dot, check_compatibility, cross_abs, magnitude] at h
      obtain rfl := h.symm
      exact atan2_bounds _ _ (Real.sqrt_nonneg _)
  · have h1 : angle_to [(1 : ℝ), 0, 0] [0, 1, 0] = .ok (atan2 1 0) := by
      norm_num [angle_to, cross, dot, check_compatibility, cross_abs, magnitude,
        magnitude_squared]
    rw [h1, atan2_one_zero]
  · intro v w h2 h3 hlen hz
    have hcond : ¬(v.length = 2 ∨ v.length = 3) := by tauto
    have hc : check_compatibility v w = .ok () := by simp [check_compatibility, hlen]
    have hden : Real.sqrt ((List.map (fun x => x * x) v).sum *
        (List.map (fun x => x * x) w).sum) = 0 := by
      rcases hz with hv | hw
      · have hv0 : (List.map (fun x => x * x) v).sum = 0 :=
          magnitude_squared_of_all_zero v hv
        rw [hv0, zero_mul, Real.sqrt_zero]
      · have hw0 : (List.map (fun x => x * x) w).sum = 0 :=
          magnitude_squared_of_all_zero w hw
        rw [hw0, mul_zero, Real.sqrt_zero]
    simp [angle_to, hcond, dot, hc, magnitude_squared, hden]
  · intro v w h2 h3 hlen hden
    have hcond : ¬(v.length = 2 ∨ v.length = 3) := by tauto
    have hc : check_compatibility v w = .ok () := by simp [check_compatibility, hlen]
    simp only [magnitude_squared] at hden
    simp [angle_to, hcond, dot, hc, magnitude_squared]
    exact hden

theorem angle_to_unsigned_angle_witness :
    angle_to [(0 : ℝ), 0, 0, 0] [1, 2, 3, 4] = .error .divisionByZero ∧
    (0 : ℝ) ≤ Real.pi / 2 ∧ Real.pi / 2 ≤ Real.pi :=
  ⟨angle_to_unsigned_angle.2.2.2.2.1 [0, 0, 0, 0] [1, 2, 3, 4] (by decide) (by decide)
      (by decide)
      (Or.inl (fun x hx => by
        rcases List.mem_cons.mp hx with h | hx <;>
          [exact h;
           rcases List.mem_cons.mp hx with h | hx <;>
             [exact h;
              rcases List.mem_cons.mp hx with h | hx <;>
                [exact h; simpa using hx]]])),
   angle_to_unsigned_angle.2.2.1 [1, 0, 0] [0, 1, 0] (by decide) (by decide)
      (Real.pi / 2) angle_to_unsigned_angle.2.2.2.1⟩

/-- C10: a single positional constructor argument is always treated as an
iterable: a non-iterable argument raises `TypeError` instead of producing a
1-vector, and a vector of length 1 can only come from a single iterable
argument with one element. -/
theorem single_argument_is_iterable :
    (∀ x : ℚ, vectorNew [PyObj.atom x] = .error .typeError) ∧
    (∀ args v : List (PyObj ℚ), vectorNew args = .ok v → v.length = 1 →
        ∃ x : ℚ, args = [PyObj.iter [x]] ∧ v = [PyObj.atom x]) := by
  constructor
  · intro x
    rfl
  · intro args v h hv
    match args with
    | [] =>
        obtain rfl : ([] : List (PyObj ℚ)) = v := by simpa [vectorNew] using h
        simp at hv
    | [PyObj.atom a] => simp [vectorNew, tupleOf] at h
    | [PyObj.iter xs] =>
        obtain rfl : xs.map PyObj.atom = v := by simpa [vectorNew, tupleOf] using h
        rw [List.length_map] at hv
        match xs, hv with
        | [x], _ => exact ⟨x, rfl, rfl⟩
    | a :: b :: rest =>
        obtain rfl : a :: b :: rest = v := by simpa [vectorNew] using h
        simp at hv

theorem single_argument_is_iterable_witness :
    vectorNew [PyObj.atom (5 : ℚ)] = .error .typeError ∧
    ∃ x : ℚ, [PyObj.iter [(3 : ℚ)]] = [PyObj.iter [x]] ∧
      [PyObj.atom (3 : ℚ)] = [PyObj.atom x] :=
  ⟨single_argument_is_iterable.1 5,
   single_argument_is_iterable.2 [PyObj.iter [3]] [PyObj.atom 3] rfl rfl⟩

theorem digitsVal_foldl (ds : List Char) (acc : Nat) :
    ds.foldl (fun a c => a * 10 + (c.toNat - 48)) acc =
      acc * 10 ^ ds.length + digitsVal ds := by
  induction ds generalizing acc with
  | nil => simp [digitsVal]
  | cons c ds ih =>
    simp only [List.foldl_cons, List.length_cons, digitsVal]
    rw [ih, ih (0 * 10 + (c.toNat - 48))]
    ring

theorem digitsVal_append_digit (l : List Char) (c : Char) :
    digitsVal (l ++ [c]) = digitsVal l * 10 + (c.toNat - 48) := by
  simp only [digitsVal, List.foldl_append, List.foldl_cons, List.foldl_nil]

theorem digitChar_toNat : ∀ d : Fin 10, (digitChar d.val).toNat = 48 + d.val := by
  decide

theorem digitChar_isDigit : ∀ d : Fin 10, isDigitC (digitChar d.val) = true := by
  decide

theorem natDigitsAux_spec :
    ∀ fuel n : Nat, n < fuel →
      natDigitsAux fuel n ≠ [] ∧
      (∀ c ∈ natDigitsAux fuel n, isDigitC c = true) ∧
      digitsVal (natDigitsAux fuel n) = n := by
  intro fuel
  induction fuel with
  | zero => intro n hn; exact absurd hn (Nat.not_lt_zero n)
  | succ fuel ih =>
    intro n hn
    by_cases h10 : n < 10
    · simp only [natDigitsAux, if_pos h10]
      refine ⟨by simp, ?_, ?_⟩
      · intro c hc
        rw [List.mem_singleton] at hc
        subst hc
        exact digitChar_isDigit ⟨n, h10⟩
      · rw [show digitsVal [digitChar n] = 0 * 10 + ((digitChar n).toNat - 48) from rfl]
        rw [show (digitChar n).toNat = 48 + n from digitChar_toNat ⟨n, h10⟩]
        omega
    · have hrec := ih (n / 10) (by omega)
      simp only [natDigitsAux, if_neg h10]
      refine ⟨by simp, ?_, ?_⟩
      · intro c hc
        rcases List.mem_append.mp hc with h | h
        · exact hrec.2.1 c h
        · rw [List.mem_singleton] at h
          subst h
          exact digitChar_isDigit ⟨n % 10, by omega⟩
      · rw [digitsVal_append_digit, hrec.2.2]
        rw [show (digitChar (n % 10)).toNat = 48 + n % 10 from
          digitChar_toNat ⟨n % 10, by omega⟩]
        omega

theorem natDigits_ne_nil (n : Nat) : natDigits n ≠ [] :=
  (natDigitsAux_spec (n + 1) n (Nat.lt_succ_self n)).1

theorem natDigits_digits (n : Nat) : ∀ c ∈ natDigits n, isDigitC c = true :=
  (natDigitsAux_spec (n + 1) n (Nat.lt_succ_self n)).2.1

theorem digitsVal_natDigits (n : Nat) : digitsVal (natDigits n) = n :=
  (natDigitsAux_spec (n + 1) n (Nat.lt_succ_self n)).2.2

theorem takeWhile_dropWhile_digits (ds rest : List Char)
    (h1 : ∀ c ∈ ds, isDigitC c = true) (h2 : headNotDigit rest) :
    (ds ++ rest).takeWhile isDigitC = ds ∧ (ds ++ rest).dropWhile isDigitC = rest := by
  induction ds with
  | nil =>
    simp only [List.nil_append]
    cases rest with
    | nil => simp
    | cons c r =>
      have hc : isDigitC c = false := h2
      simp [List.takeWhile_cons, List.dropWhile_cons, hc]
  | cons d ds ih =>
    have hd : isDigitC d = true := h1 d (List.mem_cons_self d ds)
    obtain ⟨ht, hdr⟩ := ih fun c hc => h1 c (List.mem_cons_of_mem d hc)
    simp [List.takeWhile_cons, List.dropWhile_cons, hd, ht, hdr]

theorem parseNatCs_append (n : Nat) (rest : List Char) (h2 : headNotDigit rest) :
    parseNatCs (natDigits n ++ rest) = some (n, rest) := by
  obtain ⟨ht, hd⟩ := takeWhile_dropWhile_digits (natDigits n) rest (natDigits_digits n) h2
  simp only [parseNatCs, ht, hd]
  rw [if_neg (natDigits_ne_nil n), digitsVal_natDigits n]

theorem parseIntCs_append (i : Int) (rest : List Char) (h2 : headNotDigit rest) :
    parseIntCs (intRepr i ++ rest) = some (i, rest) := by
  by_cases hi : i < 0
  · have h := parseNatCs_append i.natAbs rest h2
    simp only [intRepr, if_pos hi, List.cons_append, parseIntCs, if_true]
    rw [h]
    simp only [Option.map_some']
    have hv : -(i.natAbs : Int) = i := by omega
    rw [hv]
  · have h := parseNatCs_append i.toNat rest h2
    obtain ⟨c, cs, hc⟩ : ∃ c cs, natDigits i.toNat = c :: cs := by
      cases hnd : natDigits i.toNat with
      | nil => exact absurd hnd (natDigits_ne_nil _)
      | cons c cs => exact ⟨c, cs, rfl⟩
    have hcdig : isDigitC c = true :=
      natDigits_digits i.toNat c (by rw [hc]; exact List.mem_cons_self _ _)
    have hcne : ¬c = '-' := fun h' => absurd (h' ▸ hcdig) (by decide)
    simp only [intRepr, if_neg hi]
    rw [hc, List.cons_append]
    simp only [parseIntCs]
    rw [if_neg hcne, ← List.cons_append, ← hc, h]
    simp only [Option.map_some']
    have hv : ((i.toNat : Int)) = i := by omega
    rw [hv]

theorem elemsStop_headNotDigit (rest : List Char) (h : elemsStop rest) :
    headNotDigit rest := by
  match rest with
  | [] => trivial
  | [c] => exact h
  | c1 :: c2 :: r => exact h.1

theorem elemsStop_rparen (suffix : List Char) : elemsStop (')' :: suffix) := by
  cases suffix with
  | nil => exact (by decide : isDigitC ')' = false)
  | cons c r => exact ⟨by decide, fun h => absurd h.1 (by decide)⟩

theorem parseElemsF_append :
    ∀ (xs : List Int) (fuel : Nat) (rest : List Char),
      xs ≠ [] → xs.length ≤ fuel → elemsStop rest →
      parseElemsF fuel (reprElems xs ++ rest) = some (xs, rest) := by
  intro xs
  induction xs with
  | nil => intro fuel rest h _ _; exact absurd rfl h
  | cons x xs ih =>
    intro fuel rest hne hfuel hstop
    match fuel, hfuel with
    | fuel + 1, hfuel =>
      cases xs with
      | nil =>
        have hint := parseIntCs_append x rest (elemsStop_headNotDigit rest hstop)
        match rest, hstop with
        | [], _ =>
          rw [List.append_nil] at hint
          simp [reprElems, parseElemsF, hint]
        | [c], _ => simp [reprElems, parseElemsF, hint]
        | c1 :: c2 :: r, hstop =>
          have hns : ¬(c1 = ',' ∧ c2 = ' ') := hstop.2
          simp [reprElems, parseElemsF, hint, hns]
      | cons y ys =>
        have hlen : (y :: ys).length ≤ fuel := by
          simp only [List.length_cons] at hfuel ⊢
          omega
        have hrec := ih fuel rest (by simp) hlen hstop
        have hint := parseIntCs_append x (',' :: ' ' :: (reprElems (y :: ys) ++ rest))
          ((by decide : isDigitC ',' = false))
        simp only [reprElems, List.cons_append, List.append_assoc]
        simp [parseElemsF, hint, hrec]

theorem intRepr_ne_nil (i : Int) : intRepr i ≠ [] := by
  unfold intRepr
  split
  · simp
  · exact natDigits_ne_nil _

theorem length_le_reprElems : ∀ xs : List Int, xs.length ≤ (reprElems xs).length := by
  intro xs
  induction xs with
  | nil => simp [reprElems]
  | cons x xs ih =>
    cases xs with
    | nil =>
      have h1 : 1 ≤ (intRepr x).length := List.length_pos.mpr (intRepr_ne_nil x)
      simpa [reprElems] using h1
    | cons y ys =>
      have h1 : 1 ≤ (intRepr x).length := List.length_pos.mpr (intRepr_ne_nil x)
      simp only [reprElems, List.length_cons, List.length_append] at ih ⊢
      omega

theorem parseTuple_single (x : Int) (suffix : List Char) :
    parseTuple (reprTuple [x] ++ suffix) = some ([x], suffix) := by
  have hstop : elemsStop (',' :: ')' :: suffix) := ⟨by decide, by decide⟩
  have helems := parseElemsF_append [x]
      ((intRepr x).length + (suffix.length + 1 + 1) + 1) (',' :: ')' :: suffix)
      (by simp) (by simp only [List.length_cons, List.length_nil]; omega) hstop
  simp only [reprElems] at helems
  simp only [reprTuple, List.cons_append, List.append_assoc, List.nil_append]
  simp [parseTuple, helems]

theorem parseTuple_multi (x y : Int) (ys : List Int) (suffix : List Char) :
    parseTuple (reprTuple (x :: y :: ys) ++ suffix) = some (x :: y :: ys, suffix) := by
  have hstop := elemsStop_rparen suffix
  have hfuel : (x :: y :: ys).length ≤
      (reprElems (x :: y :: ys)).length + (suffix.length + 1) + 1 := by
    have hl := length_le_reprElems (x :: y :: ys)
    omega
  have helems := parseElemsF_append (x :: y :: ys) _ (')' :: suffix) (by simp) hfuel hstop
  simp only [reprTuple, List.cons_append, List.append_assoc, List.nil_append]
  simp [parseTuple, helems]

theorem intRepr_head_ne (i : Int) :
    ∃ c cs, intRepr i = c :: cs ∧ c ≠ ')' ∧ c ≠ '(' := by
  by_cases hi : i < 0
  · exact ⟨'-', natDigits i.natAbs, by simp [intRepr, hi], by decide, by decide⟩
  · obtain ⟨c, cs, hc⟩ : ∃ c cs, natDigits i.toNat = c :: cs := by
      cases hnd : natDigits i.toNat with
      | nil => exact absurd hnd (natDigits_ne_nil _)
      | cons c cs => exact ⟨c, cs, rfl⟩
    have hcdig : isDigitC c = true :=
      natDigits_digits i.toNat c (by rw [hc]; exact List.mem_cons_self _ _)
    refine ⟨c, cs, by simp [intRepr, hi, hc], ?_, ?_⟩
    · intro h; subst h; exact absurd hcdig (by decide)
    · intro h; subst h; exact absurd hcdig (by decide)

theorem data_reprVector (v : List Int) : (reprVector v).data = reprVectorChars v := rfl

theorem pyEval_reprVector (v : List Int) :
    pyEval (reprVector v) = some (.ok (v.map PyObj.atom)) := by
  match v with
  | [] => rfl
  | [x] =>
    have ht := parseTuple_single x [')']
    simp only [reprTuple, List.cons_append, List.append_assoc, List.nil_append] at ht
    simp only [pyEval, data_reprVector, reprVectorChars, List.length_cons,
      List.length_nil, reprTuple, List.cons_append, List.append_assoc,
      List.nil_append]
    simp [parseVectorCallChars, ht, vectorNew, tupleOf]
  | x :: y :: ys =>
    obtain ⟨c, cs, hc, hcr, hcl⟩ := intRepr_head_ne x
    have hlen1 : ¬(x :: y :: ys).length = 1 := by simp
    have helems := parseElemsF_append (x :: y :: ys)
        (cs.length + ((reprElems (y :: ys)).length + 1 + 1 + 1) + 2) [')'] (by simp)
        (by
          have hl := length_le_reprElems (y :: ys)
          simp only [List.length_cons] at hl ⊢
          omega)
        (elemsStop_rparen [])
    simp only [pyEval, data_reprVector, reprVectorChars, if_neg hlen1, reprTuple,
      List.cons_append, List.append_assoc, List.nil_append]
    simp only [reprElems, List.cons_append, List.append_assoc] at helems ⊢
    rw [hc] at helems ⊢
    simp only [List.cons_append, List.length_cons] at helems ⊢
    simp [parseVectorCallChars, hcr, hcl, helems, vectorNew]

/-- C7 (amended): the display format round-trips through the constructor:
rendering any int vector (length 1 rendered as `Vector((x,))`, length ≠ 1
rendered as `Vector(x, y, ...)`) and re-evaluating the rendered text as a
constructor call yields an equal vector; in particular `Vector(1,2,3)`
round-trips, and the single-element rendering is distinct from every
rendering of a vector of any other length. -/
theorem display_round_trip :
    (∀ v : List Int, pyEval (reprVector v) = some (.ok (v.map PyObj.atom))) ∧
    reprVector [1, 2, 3] = "Vector(1, 2, 3)" ∧
    reprVector [5] = "Vector((5,))" ∧
    (∀ (x : Int) (w : List Int), w.length ≠ 1 → reprVector [x] ≠ reprVector w) := by
  refine ⟨pyEval_reprVector, by decide, by decide, ?_⟩
  intro x w hw heq
  have h1 := pyEval_reprVector [x]
  have h2 := pyEval_reprVector w
  rw [heq, h2] at h1
  injection h1 with h1
  injection h1 with h1
  have hlen := congrArg List.length h1
  simp only [List.length_map, List.length_cons, List.length_nil] at hlen
  exact hw (by omega)

theorem display_round_trip_witness :
    pyEval (reprVector [7]) = some (.ok ([7].map PyObj.atom)) ∧
    reprVector [5] ≠ reprVector [1, 2] :=
  ⟨display_round_trip.1 [7],
   display_round_trip.2.2.2 5 [1, 2] (by decide)⟩

/-- C7 counterexample: the claim renders the single-element vector as
`Vector(5)`, but `__repr__` interpolates the repr of the one-element *tuple*
into one more pair of parentheses and actually renders `Vector((5,))` — which
is why the text re-evaluates correctly, whereas the text `Vector(5)` would
raise `TypeError` in the constructor. -/
theorem display_claim_counterexample :
    reprVector [5] ≠ "Vector(5)" ∧
    pyEval "Vector(5)" = some (.error .typeError) :=
  ⟨by decide, by rfl⟩

end Vector
